import Mathlib

/-!
Shallow embedding of the tagged-value codec core of the
`bc-components` repository: the `Signature`, `CID` and `URI` types and
their untagged CBOR encode/decode functions, together with theorems
checking the natural-language specification against them.

Bytes are modelled as `Nat`; byte sequences as `List Nat`.  Fallible
Rust functions returning `Result` are modelled as `Except String`;
functions returning `Option` (or panicking via `unwrap`) are modelled
as `Option`, with `none` standing for the panic / absence.
-/

namespace BC

/-- The structured-value universe of the external generic codec
(`dcbor`'s `CBORCase`): unsigned and negative integers, byte strings,
text strings, ordered arrays, key-value maps, tagged values and simple
values. -/
inductive CBOR where
  | unsigned : Nat → CBOR
  | negative : Nat → CBOR
  | byteString : List Nat → CBOR
  | text : String → CBOR
  | array : List CBOR → CBOR
  | map : List (CBOR × CBOR) → CBOR
  | tagged : Nat → CBOR → CBOR
  | simple : Nat → CBOR
deriving Repr

/-- `SCHNORR_SIGNATURE_SIZE` from the external crypto primitive crate
(`bc_crypto`): a Schnorr signature payload is 64 bytes. -/
def SCHNORR_SIGNATURE_SIZE : Nat := 64

/-- `ECDSA_SIGNATURE_SIZE` from the external crypto primitive crate
(`bc_crypto`): an ECDSA (compact) signature payload is 64 bytes. -/
def ECDSA_SIGNATURE_SIZE : Nat := 64

/-- The `Signature` enum from `signature.rs` (default build, without
the optional `ssh` feature): a Schnorr signature payload with an
auxiliary tag byte sequence, or an ECDSA signature payload.  The Rust
fixed-size arrays `[u8; N]` are modelled as lists; the length
invariant is the predicate `Signature.valid` below. -/
inductive Signature where
  | Schnorr (sig : List Nat) (tag : List Nat)
  | ECDSA (sig : List Nat)
deriving DecidableEq, Repr

/-- The length invariants the Rust fixed-size array types enforce by
construction: a Schnorr payload has `SCHNORR_SIGNATURE_SIZE` bytes and
an ECDSA payload has `ECDSA_SIGNATURE_SIZE` bytes. -/
def Signature.valid : Signature → Prop
  | .Schnorr sig _ => sig.length = SCHNORR_SIGNATURE_SIZE
  | .ECDSA sig => sig.length = ECDSA_SIGNATURE_SIZE

/-- `Signature::schnorr_from_data_ref`: fails unless the payload has
exactly `SCHNORR_SIGNATURE_SIZE` bytes. -/
def Signature.schnorr_from_data_ref (data : List Nat) (tag : List Nat) :
    Except String Signature :=
  if data.length = SCHNORR_SIGNATURE_SIZE then
    .ok (.Schnorr data tag)
  else
    .error "Invalid Schnorr signature size"

/-- `Signature::ecdsa_from_data_ref`: fails unless the payload has
exactly `ECDSA_SIGNATURE_SIZE` bytes. -/
def Signature.ecdsa_from_data_ref (data : List Nat) :
    Except String Signature :=
  if data.length = ECDSA_SIGNATURE_SIZE then
    .ok (.ECDSA data)
  else
    .error "Invalid ECDSA signature size"

/-- `Signature::untagged_cbor` (`CBORTaggedEncodable`): Schnorr with
empty auxiliary tag encodes as a bare byte-string, Schnorr with a
non-empty auxiliary tag as `[payload, tag]`, and ECDSA as
`[1, payload]`. -/
def Signature.untagged_cbor : Signature → CBOR
  | .Schnorr sig tag =>
      if tag.isEmpty then
        .byteString sig
      else
        .array [.byteString sig, .byteString tag]
  | .ECDSA sig => .array [.unsigned 1, .byteString sig]

/-- The dispatch on the two drained elements of a 2-element array
inside `Signature::from_untagged_cbor`: both byte-strings → Schnorr;
the unsigned integer `1` then a byte-string → ECDSA; anything else
falls through to the format error. -/
def Signature.decodeTwo (e0 e1 : CBOR) : Except String Signature :=
  match e0, e1 with
  | .byteString data, .byteString tag => Signature.schnorr_from_data_ref data tag
  | .unsigned 1, .byteString data => Signature.ecdsa_from_data_ref data
  | _, _ => .error "Invalid signature format"

/-- `Signature::from_untagged_cbor` (`CBORTaggedDecodable`, default
build): a bare byte-string decodes as Schnorr with empty auxiliary
tag; a 2-element array is dispatched by `decodeTwo`; every other
shape fails with the "Invalid signature format" error. -/
def Signature.from_untagged_cbor : CBOR → Except String Signature
  | .byteString bytes => Signature.schnorr_from_data_ref bytes []
  | .array elements =>
      match elements with
      | [e0, e1] => Signature.decodeTwo e0 e1
      | _ => .error "Invalid signature format"
  | _ => .error "Invalid signature format"

/-- The `drain.next().unwrap()` pair in the array branch of
`Signature::from_untagged_cbor`: yields the first two elements, or
`none` (the panic) when fewer than two exist. -/
def drainTwo : List CBOR → Option (CBOR × CBOR)
  | e0 :: e1 :: _ => some (e0, e1)
  | _ => none

/-- `Signature::from_untagged_cbor` with the potential panics of the
two `unwrap` calls made explicit: the array branch first checks the
length against 2 exactly as the Rust code does, then drains two
elements, and `none` models an `unwrap` panic. -/
def Signature.from_untagged_cbor_explicit (cbor : CBOR) :
    Option (Except String Signature) :=
  match cbor with
  | .byteString bytes => some (Signature.schnorr_from_data_ref bytes [])
  | .array elements =>
      if elements.length = 2 then
        match drainTwo elements with
        | some (e0, e1) => some (Signature.decodeTwo e0 e1)
        | none => none
      else
        some (.error "Invalid signature format")
  | _ => some (.error "Invalid signature format")

/-- Shape test: is this structured value a byte-string? -/
def CBOR.isByteString : CBOR → Bool
  | .byteString _ => true
  | _ => false

/-- Shape test: is this structured value the unsigned integer `1`
(the fixed ECDSA discriminant)? -/
def CBOR.isOne : CBOR → Bool
  | .unsigned 1 => true
  | _ => false

/-- `CID::CID_LENGTH`: a content identifier is exactly 32 bytes. -/
def CID_LENGTH : Nat := 32

/-- The `CID` newtype from `cid.rs`, a wrapper over a fixed 32-byte
array modelled as a list of bytes. -/
structure CID where
  data : List Nat
deriving DecidableEq, Repr

/-- `CID::from_data_ref`: returns `None` unless the byte sequence has
exactly `CID_LENGTH` bytes; applies no other validation. -/
def CID.from_data_ref (data : List Nat) : Option CID :=
  if data.length = CID_LENGTH then some ⟨data⟩ else none

/-- The value of one hexadecimal digit character as accepted by the
external `hex` crate (`0-9`, `a-f`, `A-F`), or `none` for any other
character. -/
def hexVal (c : Char) : Option Nat :=
  if 48 ≤ c.toNat ∧ c.toNat ≤ 57 then some (c.toNat - 48)
  else if 97 ≤ c.toNat ∧ c.toNat ≤ 102 then some (c.toNat - 87)
  else if 65 ≤ c.toNat ∧ c.toNat ≤ 70 then some (c.toNat - 55)
  else none

/-- `hex::decode` on a character list: pairs of hex digits become
bytes; an odd-length input or a non-hex character fails. -/
def hexDecode : List Char → Option (List Nat)
  | [] => some []
  | [_] => none
  | hi :: lo :: rest => do
      let h ← hexVal hi
      let l ← hexVal lo
      let r ← hexDecode rest
      pure ((h * 16 + l) :: r)

/-- `CID::from_hex`: hex-decode the string, then `CID::from_data_ref`.
The Rust function `unwrap`s both steps and panics when either fails
(documented: "Panics if the string is not exactly 64 hexadecimal
digits"); `none` models that panic, so no `CID` value is ever
produced from a bad string. -/
def CID.from_hex (s : String) : Option CID :=
  (hexDecode s.toList).bind CID.from_data_ref

/-- `CID::from_untagged_cbor` (`CBORTaggedDecodable`): extract a
byte-string (any other shape is a decode error), then
`CID::from_data_ref`, turning its `None` into `InvalidFormat`. -/
def CID.from_untagged_cbor : CBOR → Except String CID
  | .byteString bytes =>
      match CID.from_data_ref bytes with
      | some cid => .ok cid
      | none => .error "InvalidFormat"
  | _ => .error "WrongType"

/-- The `URI` newtype from `uri.rs`: a string wrapper whose
construction validates the string with the external `url` crate's
parser. -/
structure URI where
  str : String
deriving DecidableEq, Repr

/-- `URI::new`, parametrised by the external URI-grammar validator
(`url::Url::parse(..).is_ok()` in the source, an external
collaborator): succeeds exactly when the validator accepts the
string. -/
def URI.new (parseOk : String → Bool) (s : String) : Except String URI :=
  if parseOk s then .ok ⟨s⟩ else .error "Invalid URI"

/-- `URI::untagged_cbor` (`CBORTaggedEncodable`): the string form,
unchanged, as a text value. -/
def URI.untagged_cbor (u : URI) : CBOR := .text u.str

/-- `URI::from_untagged_cbor` (`CBORTaggedDecodable`): extract a text
string (any other shape is a decode error), then re-run the full
validation through `URI::new`. -/
def URI.from_untagged_cbor (parseOk : String → Bool) : CBOR → Except String URI
  | .text s => URI.new parseOk s
  | _ => .error "WrongType"

/-- The `From<&str>` / `From<String>` conversions into `URI`: both
call `URI::new(..).unwrap()`, so an invalid string panics instead of
returning a recoverable error; `none` models that panic. -/
def URI.fromStringConv (parseOk : String → Bool) (s : String) : Option URI :=
  match URI.new parseOk s with
  | .ok u => some u
  | .error _ => none

/-- Shape test: is this structured value a text string? -/
def CBOR.isText : CBOR → Bool
  | .text _ => true
  | _ => false

/-- Modelled from the spec: a minimal concrete instance of the
external URI-grammar validator, used only to exercise the
`parseOk`-parametric theorems on the spec's own examples.  Accepts a
string when it starts with an ASCII-letter scheme followed by `:`
(scheme, authority, path rules per "a generic URI grammar"), so
"https://example.com" is accepted and "not a uri" is rejected. -/
def specUriValidator (s : String) : Bool :=
  match s.toList with
  | [] => false
  | c :: rest =>
      c.isAlpha &&
        ((rest.dropWhile
            (fun d => d.isAlphanum || d = '+' || d = '-' || d = '.')).head?
          == some ':')

/-- C3: a bare byte-string given to `Signature::from_untagged_cbor`
decodes to a Schnorr signature with empty auxiliary tag and payload
equal to those bytes when the byte length equals the Schnorr
signature length, and is a decode error otherwise. -/
theorem Signature.decode_bare_byte_string (b : List Nat) :
    Signature.from_untagged_cbor (.byteString b) =
      if b.length = SCHNORR_SIGNATURE_SIZE then .ok (.Schnorr b [])
      else .error "Invalid Schnorr signature size" := by
  simp [Signature.from_untagged_cbor, Signature.schnorr_from_data_ref]

/-- C4: `Signature::untagged_cbor` emits a single byte-string of the
payload for Schnorr with an empty auxiliary tag, the 2-element array
`[payload, tag]` for Schnorr with a non-empty auxiliary tag, and the
2-element array `[1, payload]` for ECDSA. -/
theorem Signature.encode_shapes (sig tag : List Nat) :
    (tag = [] →
      Signature.untagged_cbor (.Schnorr sig tag) = .byteString sig)
    ∧ (tag ≠ [] →
      Signature.untagged_cbor (.Schnorr sig tag) =
        .array [.byteString sig, .byteString tag])
    ∧ Signature.untagged_cbor (.ECDSA sig) =
        .array [.unsigned 1, .byteString sig] := by
  refine ⟨fun h => ?_, fun h => ?_, rfl⟩
  · simp [Signature.untagged_cbor, h]
  · simp [Signature.untagged_cbor, List.isEmpty_iff, h]

/-- Witness for C4 at concrete inputs. -/
theorem Signature.encode_shapes_witness :
    Signature.untagged_cbor (.Schnorr [1, 2, 3] []) = .byteString [1, 2, 3]
    ∧ Signature.untagged_cbor (.Schnorr [1, 2, 3] [7]) =
        .array [.byteString [1, 2, 3], .byteString [7]]
    ∧ Signature.untagged_cbor (.ECDSA [1, 2, 3]) =
        .array [.unsigned 1, .byteString [1, 2, 3]] :=
  ⟨(Signature.encode_shapes [1, 2, 3] []).1 rfl,
   (Signature.encode_shapes [1, 2, 3] [7]).2.1 (by simp),
   (Signature.encode_shapes [1, 2, 3] [7]).2.2⟩

/-- C7: constructing a `CID` from a byte sequence, directly through
`CID::from_data_ref` or through `CID::from_untagged_cbor` on a
byte-string value, succeeds exactly when the sequence has 32 bytes,
keeps those bytes unchanged and applies no other validation. -/
theorem CID.length_invariant (bs : List Nat) :
    CID.from_data_ref bs =
      (if bs.length = CID_LENGTH then some ⟨bs⟩ else none)
    ∧ CID.from_untagged_cbor (.byteString bs) =
      (if bs.length = CID_LENGTH then .ok ⟨bs⟩ else .error "InvalidFormat") := by
  constructor
  · rfl
  · by_cases h : bs.length = CID_LENGTH <;>
      simp [CID.from_untagged_cbor, CID.from_data_ref, h]

/-- C9: two `Signature` values are equal exactly when they have the
same variant, identical payload bytes, and (for Schnorr) identical
auxiliary tag bytes; distinct variants are never equal. -/
theorem Signature.eq_iff (s t u v : List Nat) :
    ((Signature.Schnorr s t = Signature.Schnorr u v) ↔ s = u ∧ t = v)
    ∧ ((Signature.ECDSA s = Signature.ECDSA u) ↔ s = u)
    ∧ ¬(Signature.Schnorr s t = Signature.ECDSA u) := by
  refine ⟨?_, ?_, ?_⟩ <;> simp

/-- Witness for C9 at concrete inputs. -/
theorem Signature.eq_iff_witness :
    ¬(Signature.Schnorr [0] [] = Signature.ECDSA [0]) :=
  (Signature.eq_iff [0] [] [0] []).2.2

/-- C8: `Signature::from_untagged_cbor` is total: with the two
`unwrap` panics modelled explicitly, the function never panics —
the drained elements always exist because the array length was
checked to be 2 — and every input yields the plain decoder's result
(an `ok` value or a descriptive decode error). -/
theorem Signature.from_untagged_cbor_total (c : CBOR) :
    Signature.from_untagged_cbor_explicit c =
      some (Signature.from_untagged_cbor c) := by
  cases c with
  | array elements =>
      match elements with
      | [] => rfl
      | [_] => rfl
      | [_, _] => rfl
      | _ :: _ :: _ :: _ =>
          simp [Signature.from_untagged_cbor_explicit,
            Signature.from_untagged_cbor]
  | _ => rfl

/-- C1: decoding the untagged value produced by encoding any valid
`Signature` (Schnorr with any auxiliary tag, or ECDSA) succeeds and
returns exactly the original value. -/
theorem Signature.decode_encode_roundtrip (v : Signature) (h : v.valid) :
    Signature.from_untagged_cbor (Signature.untagged_cbor v) = .ok v := by
  cases v with
  | Schnorr sig tag =>
      simp only [Signature.valid] at h
      cases tag with
      | nil =>
          simp [Signature.untagged_cbor, Signature.from_untagged_cbor,
            Signature.schnorr_from_data_ref, h]
      | cons a t =>
          simp [Signature.untagged_cbor, Signature.from_untagged_cbor,
            Signature.decodeTwo, Signature.schnorr_from_data_ref, h]
  | ECDSA sig =>
      simp only [Signature.valid] at h
      simp [Signature.untagged_cbor, Signature.from_untagged_cbor,
        Signature.decodeTwo, Signature.ecdsa_from_data_ref, h]

/-- Witness for C1: a concrete valid Schnorr signature with a
non-empty auxiliary tag round-trips. -/
theorem Signature.decode_encode_roundtrip_witness :
    (Signature.Schnorr (List.replicate 64 7) [1, 2]).valid
    ∧ Signature.from_untagged_cbor
        (Signature.untagged_cbor (.Schnorr (List.replicate 64 7) [1, 2])) =
      .ok (.Schnorr (List.replicate 64 7) [1, 2]) :=
  ⟨by simp [Signature.valid, SCHNORR_SIGNATURE_SIZE],
   Signature.decode_encode_roundtrip (.Schnorr (List.replicate 64 7) [1, 2])
     (by simp [Signature.valid, SCHNORR_SIGNATURE_SIZE])⟩

/-- C2: on a 2-element array, `Signature::from_untagged_cbor` decodes
two byte-strings to Schnorr (payload = element 0, checked against the
Schnorr length; auxiliary tag = element 1 of any length), decodes
`[1, byte-string]` to ECDSA (payload checked against the ECDSA
length, so a 33-byte payload fails), and fails with the
"Invalid signature format" error on every other 2-element shape and
on every array whose length is not 2. -/
theorem Signature.decode_two_element_array (d t : List Nat) (e0 e1 : CBOR)
    (es : List CBOR) :
    (Signature.from_untagged_cbor (.array [.byteString d, .byteString t]) =
      if d.length = SCHNORR_SIGNATURE_SIZE then .ok (.Schnorr d t)
      else .error "Invalid Schnorr signature size")
    ∧ (Signature.from_untagged_cbor (.array [.unsigned 1, .byteString d]) =
      if d.length = ECDSA_SIGNATURE_SIZE then .ok (.ECDSA d)
      else .error "Invalid ECDSA signature size")
    ∧ ((e0.isByteString && e1.isByteString) = false →
        (e0.isOne && e1.isByteString) = false →
        Signature.from_untagged_cbor (.array [e0, e1]) =
          .error "Invalid signature format")
    ∧ (es.length ≠ 2 →
        Signature.from_untagged_cbor (.array es) =
          .error "Invalid signature format") := by
  refine ⟨rfl, rfl, fun h0 h1 => ?_, fun hl => ?_⟩
  · show Signature.decodeTwo e0 e1 = .error "Invalid signature format"
    cases e0 <;> cases e1 <;>
      try simp_all [CBOR.isByteString, CBOR.isOne, Signature.decodeTwo]
    rename_i n bs
    match n with
    | 0 => rfl
    | 1 => simp [CBOR.isOne] at h1
    | (k + 2) => rfl
  · match es with
    | [] => rfl
    | [_] => rfl
    | [_, _] => simp at hl
    | _ :: _ :: _ :: _ => rfl

/-- Witness for C2: a 33-byte ECDSA payload fails despite the correct
discriminant; a `[2, byte-string]` shape and an empty array fail with
the format error. -/
theorem Signature.decode_two_element_array_witness :
    Signature.from_untagged_cbor
        (.array [.unsigned 1, .byteString (List.replicate 33 0)]) =
      .error "Invalid ECDSA signature size"
    ∧ Signature.from_untagged_cbor
        (.array [.unsigned 2, .byteString (List.replicate 64 0)]) =
      .error "Invalid signature format"
    ∧ Signature.from_untagged_cbor (.array []) =
      .error "Invalid signature format" := by
  have h := Signature.decode_two_element_array (List.replicate 33 0) []
    (.unsigned 2) (.byteString (List.replicate 64 0)) []
  refine ⟨?_, ?_, ?_⟩
  · have h2 := h.2.1
    simpa using h2
  · exact h.2.2.1 (by rfl) (by rfl)
  · exact h.2.2.2 (by simp)

/-- Helper: `hexDecode` succeeds exactly on even-length all-hex
character lists, and a successful decode halves the length. -/
lemma hexDecode_spec (l : List Char) :
    (∀ bs, hexDecode l = some bs → l.length = 2 * bs.length)
    ∧ ((hexDecode l).isSome ↔
        l.length % 2 = 0 ∧ ∀ c ∈ l, (hexVal c).isSome) := by
  induction l using hexDecode.induct with
  | case1 =>
      refine ⟨fun bs h => ?_, ?_⟩
      · simp [hexDecode] at h
        simp [← h]
      · simp [hexDecode]
  | case2 c =>
      refine ⟨fun bs h => ?_, ?_⟩
      · simp [hexDecode] at h
      · simp [hexDecode]
  | case3 hi lo rest ih =>
      refine ⟨fun bs h => ?_, ?_⟩
      · simp only [hexDecode, Option.bind_eq_bind, Option.bind_eq_some, pure,
          Option.some.injEq] at h
        obtain ⟨h1, hh1, h2, hh2, r, hr, hbs⟩ := h
        have hlen := ih.1 r hr
        subst hbs
        simp only [List.length_cons, hlen]
        omega
      · constructor
        · intro hs
          rw [Option.isSome_iff_exists] at hs
          obtain ⟨bs, hbs⟩ := hs
          simp only [hexDecode, Option.bind_eq_bind, Option.bind_eq_some] at hbs
          obtain ⟨h1, hh1, h2, hh2, r, hr, _⟩ := hbs
          have hrest := ih.2.mp (by simp [hr])
          refine ⟨?_, ?_⟩
          · simp [List.length_cons, Nat.add_mod, hrest.1]
          · intro c hc
            simp only [List.mem_cons] at hc
            rcases hc with rfl | rfl | hc
            · simp [hh1]
            · simp [hh2]
            · exact hrest.2 c hc
        · rintro ⟨heven, hhex⟩
          have hhi : (hexVal hi).isSome := hhex hi (by simp)
          have hlo : (hexVal lo).isSome := hhex lo (by simp)
          have hrest : (hexDecode rest).isSome := by
            refine ih.2.mpr ⟨?_, fun c hc => hhex c (by simp [hc])⟩
            simp only [List.length_cons] at heven
            omega
          rw [Option.isSome_iff_exists] at hhi hlo hrest
          obtain ⟨a, ha⟩ := hhi
          obtain ⟨b, hb⟩ := hlo
          obtain ⟨r, hr⟩ := hrest
          simp [hexDecode, ha, hb, hr]

/-- C5: `CID::from_hex` produces a CID — whose bytes are the hex
decoding of the string — exactly when the string is 64 hexadecimal
characters; any other string fails the construction (the `unwrap`
panic, modelled as `none`) and never yields a value. -/
theorem CID.from_hex_ok_iff (s : String) :
    ((CID.from_hex s).isSome ↔
      s.toList.length = 64 ∧ ∀ c ∈ s.toList, (hexVal c).isSome)
    ∧ ∀ cid, CID.from_hex s = some cid →
        hexDecode s.toList = some cid.data := by
  have hspec := hexDecode_spec s.toList
  constructor
  · unfold CID.from_hex
    cases h : hexDecode s.toList with
    | none =>
        simp only [Option.none_bind, Option.isSome_none, Bool.false_eq_true,
          false_iff, not_and]
        intro h64 hhex
        have hs : (hexDecode s.toList).isSome :=
          hspec.2.mpr ⟨by omega, hhex⟩
        rw [h] at hs
        simp at hs
    | some bs =>
        have hlen := hspec.1 bs h
        simp only [Option.some_bind]
        by_cases h32 : bs.length = CID_LENGTH
        · have hhex := hspec.2.mp (by rw [h]; rfl)
          simp only [CID.from_data_ref, h32, if_true, Option.isSome_some,
            true_iff]
          exact ⟨by rw [hlen, h32]; rfl, fun c hc => hhex.2 c hc⟩
        · simp only [CID.from_data_ref, h32, if_false, Option.isSome_none,
            Bool.false_eq_true, false_iff, not_and]
          intro h64 _
          rw [h64] at hlen
          simp only [CID_LENGTH] at h32
          omega
  · intro cid hcid
    unfold CID.from_hex at hcid
    cases h : hexDecode s.toList with
    | none => rw [h] at hcid; simp at hcid
    | some bs =>
        rw [h] at hcid
        simp only [Option.some_bind, CID.from_data_ref] at hcid
        by_cases h32 : bs.length = CID_LENGTH
        · rw [if_pos h32] at hcid
          simp only [Option.some.injEq] at hcid
          rw [← hcid]
        · rw [if_neg h32] at hcid
          simp at hcid

/-- Witness for C5: a string of 64 `'a'` characters yields the CID
of 32 `0xaa` bytes. -/
theorem CID.from_hex_ok_iff_witness :
    (CID.from_hex (String.mk (List.replicate 64 'a'))).isSome
    ∧ hexDecode (String.mk (List.replicate 64 'a')).toList =
        some (CID.mk (List.replicate 32 170)).data := by
  have h := CID.from_hex_ok_iff (String.mk (List.replicate 64 'a'))
  exact ⟨h.1.mpr (by decide), h.2 ⟨List.replicate 32 170⟩ (by decide)⟩

/-- C6: `URI::new` succeeds exactly when the URI-grammar validator
accepts the string and fails otherwise; `URI::from_untagged_cbor`
re-runs the full validation on the decoded text, and rejects every
non-text structured value. -/
theorem URI.validation (parseOk : String → Bool) (s : String) (c : CBOR) :
    ((URI.new parseOk s = .ok ⟨s⟩) ↔ parseOk s = true)
    ∧ (parseOk s = false → URI.new parseOk s = .error "Invalid URI")
    ∧ URI.from_untagged_cbor parseOk (.text s) = URI.new parseOk s
    ∧ (c.isText = false →
        URI.from_untagged_cbor parseOk c = .error "WrongType") := by
  refine ⟨?_, fun h => ?_, rfl, fun h => ?_⟩
  · by_cases hp : parseOk s = true <;> simp [URI.new, hp]
  · simp [URI.new, h]
  · cases c <;> simp_all [CBOR.isText, URI.from_untagged_cbor]

/-- Witness for C6 on the spec's own examples, using the modelled
URI-grammar validator. -/
theorem URI.validation_witness :
    URI.new specUriValidator "https://example.com" =
      .ok ⟨"https://example.com"⟩
    ∧ URI.new specUriValidator "not a uri" = .error "Invalid URI"
    ∧ URI.from_untagged_cbor specUriValidator (.unsigned 0) =
      .error "WrongType" :=
  ⟨(URI.validation specUriValidator "https://example.com" (.unsigned 0)).1.mpr
      (by decide),
   (URI.validation specUriValidator "not a uri" (.unsigned 0)).2.1 (by decide),
   (URI.validation specUriValidator "https://example.com" (.unsigned 0)).2.2.2
      (by decide)⟩

/-- C10: the `From<&str>` / `From<String>` conversions into `URI`
unwrap `URI::new`, so they panic (modelled as `none`) on every string
the validator rejects, and produce the wrapped string otherwise. -/
theorem URI.from_string_conv_panic (parseOk : String → Bool) (s : String) :
    (parseOk s = false → URI.fromStringConv parseOk s = none)
    ∧ (parseOk s = true → URI.fromStringConv parseOk s = some ⟨s⟩) := by
  constructor <;> intro h <;>
    simp [URI.fromStringConv, URI.new, h]

/-- Witness for C10: "not a uri" panics; "https://example.com" is
converted. -/
theorem URI.from_string_conv_panic_witness :
    URI.fromStringConv specUriValidator "not a uri" = none
    ∧ URI.fromStringConv specUriValidator "https://example.com" =
        some ⟨"https://example.com"⟩ :=
  ⟨(URI.from_string_conv_panic specUriValidator "not a uri").1 (by decide),
   (URI.from_string_conv_panic specUriValidator "https://example.com").2
      (by decide)⟩

end BC
